import Mathlib

/-!
# Verification of the Prompt_Intel rule-based text-analysis core

Shallow embedding of the deterministic, rule-based core of the repository:
intent detection (`services/intentDetector.js`), constraint-gap detection
(`services/constraintDetector.js`), prompt scoring (`services/scoringEngine.js`),
warning generation (`services/warningGenerator.js`) and drift detection
(`services/driftDetector.js`).

Texts are modelled as `List Char`. JavaScript `toLowerCase` is modelled for
ASCII (the only alphabet the keyword tables use), JS `\s` whitespace by the
ASCII whitespace characters, and the JS float comparisons `x < 0.4`,
`ratio > 0.6`, `ratio > 0.8` by the corresponding exact rational comparisons.
Score arithmetic uses `Int`, mirroring JS integer arithmetic exactly.
-/

/-- ASCII lowercasing of a text, modelling JS `String.prototype.toLowerCase`
on the ASCII fragment (`Char.toLower` maps `A`–`Z` to `a`–`z` and fixes
everything else). -/
def toLowerCase (text : List Char) : List Char :=
  text.map Char.toLower

/-- Substring containment, modelling JS `String.prototype.includes`:
`includes needle haystack` is true iff `needle` occurs contiguously in
`haystack` (an empty needle always occurs). -/
def includes (needle : List Char) : List Char → Bool
  | [] => needle.isEmpty
  | c :: rest => needle.isPrefixOf (c :: rest) || includes needle rest

/-- ASCII whitespace, modelling the characters of JS `\s` that occur in
ASCII text: space, tab, line feed, carriage return, vertical tab, form feed. -/
def isWsChar (c : Char) : Bool :=
  c = ' ' || c = '\t' || c = '\n' || c = '\x0d' || c = '\x0b' || c = '\x0c'

/-- Helper for `splitWs`: accumulates the current (reversed) token. -/
def splitWsAux : List Char → List Char → List (List Char)
  | [], acc => if acc = [] then [] else [acc.reverse]
  | c :: rest, acc =>
    if isWsChar c then
      if acc = [] then splitWsAux rest [] else acc.reverse :: splitWsAux rest []
    else splitWsAux rest (c :: acc)

/-- Split a text on runs of whitespace, dropping empty tokens: models the JS
idiom `text.split(/\s+/).filter(Boolean)` (and `split(/\s+/)` followed by any
filter that discards empty strings). -/
def splitWs (text : List Char) : List (List Char) :=
  splitWsAux text []

/- ── services/intentDetector.js ───────────────────────────────────────── -/

/-- The closed set of intent categories. -/
inductive IntentName
  | code_generation | explanation | debugging | creative_writing
  | data_analysis | summarization | translation | comparison
  | instruction | general
deriving DecidableEq

/-- Intent-detection confidence levels. -/
inductive Confidence
  | low | medium | high
deriving DecidableEq

/-- Which detector produced an intent. -/
inductive Source
  | rule | ai | hybrid
deriving DecidableEq

/-- The result record of intent detection. -/
structure Intent where
  detected : IntentName
  confidence : Confidence
  source : Source
deriving DecidableEq

namespace IntentDetector

/-- One entry of the fixed intent rule table. -/
structure IntentRule where
  intent : IntentName
  keywords : List (List Char)

/-- Keywords of the `code_generation` rule. -/
def codeGenerationKeywords : List (List Char) :=
  ["write".data, "code".data, "implement".data, "function".data, "program".data,
   "script".data, "algorithm".data, "build".data, "create a".data, "develop".data]

/-- Keywords of the `explanation` rule. -/
def explanationKeywords : List (List Char) :=
  ["explain".data, "what is".data, "how does".data, "describe".data,
   "tell me about".data, "define".data, "meaning of".data, "why does".data]

/-- Keywords of the `debugging` rule. -/
def debuggingKeywords : List (List Char) :=
  ["fix".data, "debug".data, "error".data, "bug".data, "issue".data,
   "not working".data, "wrong".data, "broken".data, "failing".data]

/-- Keywords of the `creative_writing` rule. -/
def creativeWritingKeywords : List (List Char) :=
  ["write a story".data, "poem".data, "essay".data, "blog".data, "article".data,
   "creative".data, "narrative".data, "fiction".data]

/-- Keywords of the `data_analysis` rule. -/
def dataAnalysisKeywords : List (List Char) :=
  ["analyze".data, "data".data, "chart".data, "graph".data, "statistics".data,
   "dataset".data, "csv".data, "visualize".data, "plot".data]

/-- Keywords of the `summarization` rule. -/
def summarizationKeywords : List (List Char) :=
  ["summarize".data, "summary".data, "tldr".data, "shorten".data,
   "condense".data, "brief".data, "key points".data]

/-- Keywords of the `translation` rule. -/
def translationKeywords : List (List Char) :=
  ["translate".data, "convert to".data, "in spanish".data, "in french".data,
   "in hindi".data, "localize".data]

/-- Keywords of the `comparison` rule. -/
def comparisonKeywords : List (List Char) :=
  ["compare".data, "difference between".data, "vs".data, "versus".data,
   "pros and cons".data, "better".data]

/-- Keywords of the `instruction` rule. -/
def instructionKeywords : List (List Char) :=
  ["how to".data, "steps to".data, "guide".data, "tutorial".data,
   "instructions".data, "walk me through".data, "show me how".data]

/-- The fixed ordered intent rule table `INTENT_RULES`. -/
def INTENT_RULES : List IntentRule :=
  [⟨.code_generation, codeGenerationKeywords⟩,
   ⟨.explanation, explanationKeywords⟩,
   ⟨.debugging, debuggingKeywords⟩,
   ⟨.creative_writing, creativeWritingKeywords⟩,
   ⟨.data_analysis, dataAnalysisKeywords⟩,
   ⟨.summarization, summarizationKeywords⟩,
   ⟨.translation, translationKeywords⟩,
   ⟨.comparison, comparisonKeywords⟩,
   ⟨.instruction, instructionKeywords⟩]

/-- The rule-iteration loop of `detectByRules`: return the first rule one of
whose keywords occurs in the lowercased text as a substring. -/
def detectFrom (lower : List Char) : List IntentRule → Intent
  | [] => { detected := .general, confidence := .low, source := .rule }
  | r :: rest =>
    if r.keywords.any (fun kw => includes kw lower) then
      { detected := r.intent, confidence := .medium, source := .rule }
    else detectFrom lower rest

/-- Rule-based intent detection (`detectByRules` in
`services/intentDetector.js`). -/
def detectByRules (text : List Char) : Intent :=
  detectFrom (toLowerCase text) INTENT_RULES

/-- Main entry point: pure rule-based detection. -/
def detect (text : List Char) : Intent :=
  detectByRules text

end IntentDetector

/- ── services/constraintDetector.js ───────────────────────────────────── -/

/-- The closed set of constraint categories. -/
inductive ConstraintCategory
  | language | level | output_format | scope | examples
deriving DecidableEq

/-- The fixed enumeration order of the constraint categories. -/
def CATEGORY_ORDER : List ConstraintCategory :=
  [.language, .level, .output_format, .scope, .examples]

namespace ConstraintDetector

/-- The `LANGUAGES` indicator list. -/
def LANGUAGES : List (List Char) :=
  ["javascript".data, "python".data, "java".data, "c++".data, "c#".data,
   "ruby".data, "go".data, "rust".data, "typescript".data, "php".data,
   "swift".data, "kotlin".data, "scala".data, "r".data, "matlab".data,
   "sql".data, "html".data, "css".data, "bash".data, "shell".data,
   "powershell".data, "dart".data]

/-- The `LEVELS` indicator list. -/
def LEVELS : List (List Char) :=
  ["beginner".data, "intermediate".data, "advanced".data, "expert".data,
   "novice".data, "basic".data, "simple".data, "complex".data, "in-depth".data]

/-- The `OUTPUT_FORMATS` indicator list. -/
def OUTPUT_FORMATS : List (List Char) :=
  ["code only".data, "code + explanation".data, "step by step".data,
   "bullet points".data, "table".data, "json".data, "markdown".data,
   "diagram".data, "pseudocode".data, "list".data]

/-- The `SCOPE_INDICATORS` indicator list. -/
def SCOPE_INDICATORS : List (List Char) :=
  ["function".data, "class".data, "module".data, "full app".data,
   "snippet".data, "project".data, "component".data, "api".data,
   "endpoint".data, "page".data, "service".data, "script".data]

/-- The `EXAMPLE_INDICATORS` indicator list. -/
def EXAMPLE_INDICATORS : List (List Char) :=
  ["example".data, "for instance".data, "e.g.".data, "such as".data,
   "like this".data, "sample".data, "demo".data, "illustration".data]

/-- The `DEFAULT_SUGGESTIONS` table: static suggestion chips per category. -/
def DEFAULT_SUGGESTIONS : ConstraintCategory → List String
  | .language => ["Python", "JavaScript", "Java", "TypeScript", "C++", "Go"]
  | .level => ["Beginner", "Intermediate", "Advanced"]
  | .output_format => ["Code only", "Code + Explanation", "Step-by-step", "Bullet points"]
  | .scope => ["Function", "Class", "Full module", "Code snippet"]
  | .examples => ["Include examples", "No examples needed"]

/-- JS regex `\w`: ASCII letter, digit, or underscore. -/
def isWordChar (c : Char) : Bool :=
  c.isAlpha || c.isDigit || c = '_'

/-- The `isWordChar` test lifted to an optional character; out-of-bounds positions
count as non-word, exactly as in JS `\b` semantics. -/
def isWordO : Option Char → Bool
  | none => false
  | some c => isWordChar c

/-- Does the regex `\b<kw-escaped>\b` match at the current position of the
text, where `prev` is the character immediately before that position (`none`
at the start of the text)? A JS word boundary `\b` holds at a position iff
exactly one of the two adjacent characters is a word character. `escapeRegex`
in the source makes the keyword's characters literal, so the body of the
pattern matches iff `kw` is a prefix of the remaining text. -/
def wbMatchHere (kw text : List Char) (prev : Option Char) : Bool :=
  kw.isPrefixOf text &&
  (isWordO prev != isWordO kw.head?) &&
  (isWordO kw.getLast? != isWordO (text.drop kw.length).head?)

/-- Scan all positions of the text for a `\b<kw>\b` match. -/
def wbSearchAux (kw : List Char) : List Char → Option Char → Bool
  | [], prev => wbMatchHere kw [] prev
  | c :: rest, prev => wbMatchHere kw (c :: rest) prev || wbSearchAux kw rest (some c)

/-- Models `new RegExp('\\b' + escapeRegex(kw) + '\\b', 'i').test(lower)`: both the
keyword and the text are lowercase, so the `i` flag is inert. -/
def wbTest (kw text : List Char) : Bool :=
  wbSearchAux kw text none

/-- The per-language test of `detectByRules`: word-boundary matching for
indicators of length ≤ 3, raw substring containment otherwise. -/
def matchesLanguage (lang lower : List Char) : Bool :=
  if lang.length ≤ 3 then wbTest lang lower else includes lang lower

/-- The `hasLanguage` check of `detectByRules`. -/
def hasLanguage (lower : List Char) : Bool :=
  LANGUAGES.any (fun lang => matchesLanguage lang lower)

/-- The `hasLevel` check of `detectByRules`. -/
def hasLevel (lower : List Char) : Bool :=
  LEVELS.any (fun lvl => includes lvl lower)

/-- The `hasFormat` check of `detectByRules`. -/
def hasFormat (lower : List Char) : Bool :=
  OUTPUT_FORMATS.any (fun fmt => includes fmt lower)

/-- The `hasScope` check of `detectByRules`. -/
def hasScope (lower : List Char) : Bool :=
  SCOPE_INDICATORS.any (fun s => includes s lower)

/-- The `hasExamples` check of `detectByRules`. -/
def hasExamples (lower : List Char) : Bool :=
  EXAMPLE_INDICATORS.any (fun e => includes e lower)

/-- The result of constraint-gap detection: the ordered gap list and the
suggestion map, the latter as an ordered association list. -/
structure GapResult where
  gaps : List ConstraintCategory
  suggestions : List (ConstraintCategory × List String)
deriving DecidableEq

/-- Rule-based constraint-gap detection (`detectByRules` in
`services/constraintDetector.js`): for each category judged absent, push the
category onto `gaps` and its default suggestion chips onto `suggestions`,
in the fixed category order. -/
def detectByRules (text : List Char) : GapResult :=
  let lower := toLowerCase text
  { gaps :=
      (if hasLanguage lower then [] else [ConstraintCategory.language]) ++
      (if hasLevel lower then [] else [ConstraintCategory.level]) ++
      (if hasFormat lower then [] else [ConstraintCategory.output_format]) ++
      (if hasScope lower then [] else [ConstraintCategory.scope]) ++
      (if hasExamples lower then [] else [ConstraintCategory.examples]),
    suggestions :=
      (if hasLanguage lower then []
       else [(ConstraintCategory.language, DEFAULT_SUGGESTIONS ConstraintCategory.language)]) ++
      (if hasLevel lower then []
       else [(ConstraintCategory.level, DEFAULT_SUGGESTIONS ConstraintCategory.level)]) ++
      (if hasFormat lower then []
       else [(ConstraintCategory.output_format, DEFAULT_SUGGESTIONS ConstraintCategory.output_format)]) ++
      (if hasScope lower then []
       else [(ConstraintCategory.scope, DEFAULT_SUGGESTIONS ConstraintCategory.scope)]) ++
      (if hasExamples lower then []
       else [(ConstraintCategory.examples, DEFAULT_SUGGESTIONS ConstraintCategory.examples)]) }

/-- Whether `detectByRules` judges a category present in the text. -/
def judgedPresent (text : List Char) : ConstraintCategory → Bool
  | .language => hasLanguage (toLowerCase text)
  | .level => hasLevel (toLowerCase text)
  | .output_format => hasFormat (toLowerCase text)
  | .scope => hasScope (toLowerCase text)
  | .examples => hasExamples (toLowerCase text)

/-- Executable side condition for the amended C9: every occurrence of `kw` in
the text is followed by the end of the text or by a non-word character. -/
def occOk (kw : List Char) : List Char → Bool
  | [] => true
  | c :: rest =>
    (!(kw.isPrefixOf (c :: rest)) || !(isWordO ((c :: rest).drop kw.length).head?)) &&
    occOk kw rest

/-- Main entry point: pure rule-based detection. -/
def detect (text : List Char) : GapResult :=
  detectByRules text

end ConstraintDetector

/- ── services/scoringEngine.js ────────────────────────────────────────── -/

/-- The four sub-scores and their total. -/
structure ScoreCard where
  clarity : Int
  completeness : Int
  specificity : Int
  intentAlignment : Int
  total : Int
deriving DecidableEq

namespace ScoringEngine

/-- The fixed action-verb list used by the intent-alignment score. -/
def actionVerbs : List (List Char) :=
  ["write".data, "create".data, "build".data, "explain".data, "fix".data,
   "debug".data, "analyze".data, "compare".data, "list".data, "generate".data,
   "design".data, "implement".data, "describe".data, "summarize".data,
   "translate".data, "convert".data, "show".data, "tell".data, "help".data,
   "make".data]

/-- Number of maximal runs of sentence-ending punctuation (`.`, `!`, `?`):
models `(text.match(/[.!?]+/g) || []).length`. The boolean tracks whether the
previous character belonged to a run. -/
def countSentRuns : List Char → Bool → Nat
  | [], _ => 0
  | c :: rest, inRun =>
    if c = '.' || c = '!' || c = '?' then
      (if inRun then 0 else 1) + countSentRuns rest true
    else countSentRuns rest false

/-- Models `/[A-Z]{2,}/.test(text)`: two adjacent ASCII uppercase letters. -/
def hasUpperRun : List Char → Bool
  | a :: b :: rest => (a.isUpper && b.isUpper) || hasUpperRun (b :: rest)
  | _ => false

/-- The clarity sub-score: base 3, length/punctuation bonuses, a penalty of 3
(floored at 1) for prompts under 3 words, ceiling 10. -/
def clarityScore (wordCount sentenceCount : Nat) (hasComma hasDotOrQ : Bool) : Int :=
  let c : Int := 3
    + (if 5 ≤ wordCount then 1 else 0)
    + (if 10 ≤ wordCount then 1 else 0)
    + (if 20 ≤ wordCount then 1 else 0)
    + (if 2 ≤ sentenceCount then 1 else 0)
    + (if hasComma then 1 else 0)
    + (if hasDotOrQ then 1 else 0)
  let c := if wordCount < 3 then max 1 (c - 3) else c
  min 10 c

/-- The completeness sub-score: `10 - 2·|gaps|` plus length bonuses, clamped
to `[1, 10]`. -/
def completenessScore (gapsCount wordCount : Nat) : Int :=
  let c : Int := 10 - 2 * (gapsCount : Int)
    + (if 15 ≤ wordCount then 1 else 0)
    + (if 30 ≤ wordCount then 1 else 0)
  max 1 (min 10 c)

/-- The specificity sub-score: base 3 plus diversity, length, digit and
acronym bonuses, ceiling 10. The JS float comparisons
`uniqueWords.size / Math.max(wordCount, 1) > 0.6` (resp. `> 0.8`) are modelled
by the exact rational equivalents `3·max(wordCount,1) < 5·unique`
(resp. `4·max(wordCount,1) < 5·unique`). -/
def specificityScore (wordCount uniqueCount : Nat) (hasDigit hasAcronym : Bool) : Int :=
  let c : Int := 3
    + (if 3 * max wordCount 1 < 5 * uniqueCount then 1 else 0)
    + (if 4 * max wordCount 1 < 5 * uniqueCount then 1 else 0)
    + (if 8 ≤ wordCount then 1 else 0)
    + (if 15 ≤ wordCount then 1 else 0)
    + (if 25 ≤ wordCount then 1 else 0)
    + (if hasDigit then 1 else 0)
    + (if hasAcronym then 1 else 0)
  min 10 c

/-- The intent-alignment sub-score: base 4, +3 for an action verb, +1 for a
question mark, +1 for 5+ words, a penalty of 2 (floored at 1) for prompts
under 3 words, ceiling 10. -/
def intentAlignmentScore (wordCount : Nat) (hasAction hasQ : Bool) : Int :=
  let c : Int := 4
    + (if hasAction then 3 else 0)
    + (if hasQ then 1 else 0)
    + (if 5 ≤ wordCount then 1 else 0)
  let c := if wordCount < 3 then max 1 (c - 2) else c
  min 10 c

/-- Rule-based scoring (`scoreByRules` in `services/scoringEngine.js`). -/
def scoreByRules (text : List Char) (gaps : List ConstraintCategory) : ScoreCard :=
  let words := splitWs text
  let wordCount := words.length
  let sentenceCount := if countSentRuns text false = 0 then 1 else countSentRuns text false
  let hasQuestionMark := text.contains '?'
  let uniqueWords := (words.map toLowerCase).dedup
  let lower := toLowerCase text
  let clarity := clarityScore wordCount sentenceCount (text.contains ',')
    (hasQuestionMark || text.contains '.')
  let completeness := completenessScore gaps.length wordCount
  let specificity := specificityScore wordCount uniqueWords.length
    (text.any Char.isDigit) (hasUpperRun text)
  let intentAlignment := intentAlignmentScore wordCount
    (actionVerbs.any (fun v => includes v lower)) hasQuestionMark
  { clarity := clarity, completeness := completeness, specificity := specificity,
    intentAlignment := intentAlignment,
    total := clarity + completeness + specificity + intentAlignment }

/-- Main entry point: pure rule-based scoring. -/
def score (text : List Char) (gaps : List ConstraintCategory) : ScoreCard :=
  scoreByRules text gaps

end ScoringEngine

/- ── services/warningGenerator.js ─────────────────────────────────────── -/

namespace WarningGenerator

/-- The possible warning messages, one constructor per distinct push site of
`generate`; `missingConstraints` carries the gap list interpolated into its
message. -/
inductive Warning
  | hallucinationHigh
  | hallucinationModerate
  | mostConstraintsMissing
  | missingConstraints (gaps : List ConstraintCategory)
  | lowClarity
  | unclearIntent
  | lowConfidence
  | lowTotal
deriving DecidableEq

/-- Warning generation (`generate` in `services/warningGenerator.js`):
evaluate the trigger conditions in fixed order, appending the message of each
condition that fires. -/
def generate (scores : ScoreCard) (gaps : List ConstraintCategory) (intent : Intent) :
    List Warning :=
  (if scores.specificity ≤ 3 then [Warning.hallucinationHigh]
   else if scores.specificity ≤ 5 then [Warning.hallucinationModerate]
   else []) ++
  (if 4 ≤ gaps.length then [Warning.mostConstraintsMissing]
   else if 2 ≤ gaps.length then [Warning.missingConstraints gaps]
   else []) ++
  (if scores.clarity ≤ 3 then [Warning.lowClarity] else []) ++
  (if scores.intentAlignment ≤ 3 then [Warning.unclearIntent] else []) ++
  (if intent.confidence = Confidence.low then [Warning.lowConfidence] else []) ++
  (if scores.total ≤ 12 then [Warning.lowTotal] else [])

end WarningGenerator

/- ── services/driftDetector.js ────────────────────────────────────────── -/

namespace DriftDetector

/-- The fixed stop-word set of `extractKeywords`. -/
def STOP_WORDS : List (List Char) :=
  ["a".data, "an".data, "the".data, "is".data, "are".data, "was".data,
   "were".data, "be".data, "been".data, "being".data,
   "have".data, "has".data, "had".data, "do".data, "does".data, "did".data,
   "will".data, "would".data, "could".data,
   "should".data, "may".data, "might".data, "can".data, "shall".data,
   "to".data, "of".data, "in".data, "for".data,
   "on".data, "with".data, "at".data, "by".data, "from".data, "as".data,
   "into".data, "through".data, "during".data,
   "before".data, "after".data, "above".data, "below".data, "between".data,
   "and".data, "but".data, "or".data,
   "nor".data, "not".data, "so".data, "yet".data, "both".data, "either".data,
   "neither".data, "each".data,
   "every".data, "all".data, "any".data, "few".data, "more".data, "most".data,
   "other".data, "some".data,
   "such".data, "no".data, "only".data, "own".data, "same".data, "than".data,
   "too".data, "very".data, "just".data,
   "about".data, "it".data, "its".data, "i".data, "me".data, "my".data,
   "we".data, "our".data, "you".data, "your".data,
   "he".data, "she".data, "they".data, "them".data, "this".data, "that".data,
   "these".data, "those".data,
   "what".data, "which".data, "who".data, "whom".data, "how".data,
   "when".data, "where".data, "why".data,
   "if".data, "then".data, "else".data, "while".data, "up".data, "out".data,
   "off".data]

/-- A character kept by `replace(/[^a-z0-9\s]/g, '')` after lowercasing. -/
def isKeywordChar (c : Char) : Bool :=
  ('a' ≤ c && c ≤ 'z') || ('0' ≤ c && c ≤ '9') || isWsChar c

/-- Models `extractKeywords`: lowercase, strip every character outside
`[a-z0-9\s]`, split on whitespace, keep tokens longer than 2 characters that
are not stop words. -/
def extractKeywords (text : List Char) : List (List Char) :=
  (splitWs ((toLowerCase text).filter isKeywordChar)).filter
    (fun w => 2 < w.length && !(STOP_WORDS.contains w))

/-- The result of drift detection. -/
structure DriftResult where
  driftDetected : Bool
  driftWarning : List Char
deriving DecidableEq

/-- The drift warning text, interpolating the rounded overlap percentage. -/
def mkDriftWarning (pct : Nat) : List Char :=
  "Intent drift detected: only ".data ++ (toString pct).data ++
  "% of original keywords are preserved in the refined prompt. The refinement may have altered your original intent.".data

/-- The number of original keywords (duplicates counted individually) present
in the refined keyword set. -/
def overlapCount (originalText refinedText : List Char) : Nat :=
  ((extractKeywords originalText).filter
    (fun kw => (extractKeywords refinedText).contains kw)).length

/-- Rule-based drift detection (`detectByRules` in
`services/driftDetector.js`). The float comparison
`overlapRatio < 0.4` (with `overlapRatio = overlap / origKeywords.length`) is
modelled by the exact equivalent `5 * overlap < 2 * origKeywords.length`, and
`Math.round(overlapRatio * 100)` — that is,
`⌊overlap / length * 100 + 1/2⌋` for the non-negative ratio — by the exact
integer form `(200 * overlap + length) / (2 * length)`; both equivalences are
proved in the theorems below. -/
def detectByRules (originalText refinedText : List Char) : DriftResult :=
  let origKeywords := extractKeywords originalText
  let refinedKeywords := extractKeywords refinedText
  if origKeywords.length = 0 then
    { driftDetected := false, driftWarning := [] }
  else
    let overlap := (origKeywords.filter (fun kw => refinedKeywords.contains kw)).length
    if 5 * overlap < 2 * origKeywords.length then
      { driftDetected := true,
        driftWarning :=
          mkDriftWarning ((200 * overlap + origKeywords.length) / (2 * origKeywords.length)) }
    else
      { driftDetected := false, driftWarning := [] }

/-- Main entry point: pure rule-based keyword-overlap detection. -/
def detect (originalText refinedText : List Char) : DriftResult :=
  detectByRules originalText refinedText

end DriftDetector

/-!
## Theorems

One theorem per claim of the specification review, with supporting lemmas.
-/

/-- An input text used by C4: `Let's use R for this` (`Char.ofNat 39` is the
apostrophe). -/
def textLetsUseR : List Char := "Let".data ++ Char.ofNat 39 :: "s use R for this".data

namespace ScoringEngine

theorem clarityScore_bounds (wc sc : Nat) (b1 b2 : Bool) :
    1 ≤ clarityScore wc sc b1 b2 ∧ clarityScore wc sc b1 b2 ≤ 10 := by
  unfold clarityScore
  dsimp only
  split_ifs <;> omega

theorem completenessScore_bounds (g wc : Nat) :
    1 ≤ completenessScore g wc ∧ completenessScore g wc ≤ 10 := by
  unfold completenessScore
  dsimp only
  split_ifs <;> omega

theorem specificityScore_bounds (wc u : Nat) (b1 b2 : Bool) :
    3 ≤ specificityScore wc u b1 b2 ∧ specificityScore wc u b1 b2 ≤ 10 := by
  unfold specificityScore
  dsimp only
  split_ifs <;> omega

theorem intentAlignmentScore_bounds (wc : Nat) (b1 b2 : Bool) :
    1 ≤ intentAlignmentScore wc b1 b2 ∧ intentAlignmentScore wc b1 b2 ≤ 10 := by
  unfold intentAlignmentScore
  dsimp only
  split_ifs <;> omega

theorem scoreByRules_clarity_bounds (text : List Char) (gaps : List ConstraintCategory) :
    1 ≤ (scoreByRules text gaps).clarity ∧ (scoreByRules text gaps).clarity ≤ 10 :=
  clarityScore_bounds _ _ _ _

theorem scoreByRules_completeness_bounds (text : List Char) (gaps : List ConstraintCategory) :
    1 ≤ (scoreByRules text gaps).completeness ∧ (scoreByRules text gaps).completeness ≤ 10 :=
  completenessScore_bounds _ _

theorem scoreByRules_specificity_bounds (text : List Char) (gaps : List ConstraintCategory) :
    3 ≤ (scoreByRules text gaps).specificity ∧ (scoreByRules text gaps).specificity ≤ 10 :=
  specificityScore_bounds _ _ _ _

theorem scoreByRules_intentAlignment_bounds (text : List Char) (gaps : List ConstraintCategory) :
    1 ≤ (scoreByRules text gaps).intentAlignment ∧ (scoreByRules text gaps).intentAlignment ≤ 10 :=
  intentAlignmentScore_bounds _ _ _

theorem scoreByRules_total_eq (text : List Char) (gaps : List ConstraintCategory) :
    (scoreByRules text gaps).total =
      (scoreByRules text gaps).clarity + (scoreByRules text gaps).completeness +
      (scoreByRules text gaps).specificity + (scoreByRules text gaps).intentAlignment :=
  rfl

end ScoringEngine

/-- C1: for every non-empty text and every gap list, `score` returns a
`ScoreCard` whose `total` is the sum of the four sub-scores, with `clarity`,
`specificity` and `intentAlignment` integers in `[0, 10]`, `completeness` an
integer in `[1, 10]`, and `total` in `[0, 40]`. -/
theorem spec_C1 (text : List Char) (gaps : List ConstraintCategory) (h : text ≠ []) :
    (ScoringEngine.score text gaps).total =
      (ScoringEngine.score text gaps).clarity + (ScoringEngine.score text gaps).completeness +
      (ScoringEngine.score text gaps).specificity +
      (ScoringEngine.score text gaps).intentAlignment ∧
    0 ≤ (ScoringEngine.score text gaps).clarity ∧ (ScoringEngine.score text gaps).clarity ≤ 10 ∧
    1 ≤ (ScoringEngine.score text gaps).completeness ∧
    (ScoringEngine.score text gaps).completeness ≤ 10 ∧
    0 ≤ (ScoringEngine.score text gaps).specificity ∧
    (ScoringEngine.score text gaps).specificity ≤ 10 ∧
    0 ≤ (ScoringEngine.score text gaps).intentAlignment ∧
    (ScoringEngine.score text gaps).intentAlignment ≤ 10 ∧
    0 ≤ (ScoringEngine.score text gaps).total ∧ (ScoringEngine.score text gaps).total ≤ 40 := by
  simp only [ScoringEngine.score]
  obtain ⟨h1, h2⟩ := ScoringEngine.scoreByRules_clarity_bounds text gaps
  obtain ⟨h3, h4⟩ := ScoringEngine.scoreByRules_completeness_bounds text gaps
  obtain ⟨h5, h6⟩ := ScoringEngine.scoreByRules_specificity_bounds text gaps
  obtain ⟨h7, h8⟩ := ScoringEngine.scoreByRules_intentAlignment_bounds text gaps
  have ht := ScoringEngine.scoreByRules_total_eq text gaps
  exact ⟨ht, by omega, h2, h3, h4, by omega, h6, by omega, h8, by omega, by omega⟩

/-- Witness for C1 at the concrete input `"fix"` with an empty gap list. -/
theorem spec_C1_witness :
    "fix".data ≠ [] ∧
    ((ScoringEngine.score "fix".data []).total =
      (ScoringEngine.score "fix".data []).clarity +
      (ScoringEngine.score "fix".data []).completeness +
      (ScoringEngine.score "fix".data []).specificity +
      (ScoringEngine.score "fix".data []).intentAlignment ∧
    0 ≤ (ScoringEngine.score "fix".data []).clarity ∧
    (ScoringEngine.score "fix".data []).clarity ≤ 10 ∧
    1 ≤ (ScoringEngine.score "fix".data []).completeness ∧
    (ScoringEngine.score "fix".data []).completeness ≤ 10 ∧
    0 ≤ (ScoringEngine.score "fix".data []).specificity ∧
    (ScoringEngine.score "fix".data []).specificity ≤ 10 ∧
    0 ≤ (ScoringEngine.score "fix".data []).intentAlignment ∧
    (ScoringEngine.score "fix".data []).intentAlignment ≤ 10 ∧
    0 ≤ (ScoringEngine.score "fix".data []).total ∧
    (ScoringEngine.score "fix".data []).total ≤ 40) :=
  ⟨by decide, spec_C1 "fix".data [] (by decide)⟩

/-- C7: on the one-word text `"fix"` (for any gap list), the clarity
sub-score is exactly 1 (start 3, no bonuses, word-count-below-3 penalty of 3
with floor 1) and the intent-alignment sub-score is exactly 5 (start 4, +3
for the action verb `fix`, no other bonus, word-count-below-3 penalty of 2
with floor 1, ceiling 10). -/
theorem spec_C7 :
    ∀ gaps : List ConstraintCategory,
      (ScoringEngine.score "fix".data gaps).clarity = 1 ∧
      (ScoringEngine.score "fix".data gaps).intentAlignment = 5 :=
  fun _ => ⟨rfl, rfl⟩

namespace ConstraintDetector

theorem detect_gaps_eq (text : List Char) :
    (detectByRules text).gaps =
      CATEGORY_ORDER.filter (fun c => !judgedPresent text c) := by
  unfold detectByRules CATEGORY_ORDER
  cases hL : hasLanguage (toLowerCase text) <;>
    cases hV : hasLevel (toLowerCase text) <;>
      cases hF : hasFormat (toLowerCase text) <;>
        cases hS : hasScope (toLowerCase text) <;>
          cases hE : hasExamples (toLowerCase text) <;>
            simp [judgedPresent, hL, hV, hF, hS, hE]

theorem detect_suggestions_eq (text : List Char) :
    (detectByRules text).suggestions =
      (detectByRules text).gaps.map (fun c => (c, DEFAULT_SUGGESTIONS c)) := by
  unfold detectByRules
  cases hL : hasLanguage (toLowerCase text) <;>
    cases hV : hasLevel (toLowerCase text) <;>
      cases hF : hasFormat (toLowerCase text) <;>
        cases hS : hasScope (toLowerCase text) <;>
          cases hE : hasExamples (toLowerCase text) <;>
            simp [hL, hV, hF, hS, hE]

theorem lookup_map_pair {α β : Type} [DecidableEq α] (f : α → β) (l : List α) (c : α) :
    c ∈ l → List.lookup c (l.map (fun x => (x, f x))) = some (f c) := by
  induction l with
  | nil => intro hc; cases hc
  | cons a rest ih =>
    intro hc
    by_cases hca : c = a
    · subst hca
      simp [List.lookup]
    · rcases List.mem_cons.mp hc with hca2 | hc2
      · exact absurd hca2 hca
      · have hba : (c == a) = false := by simpa using hca
        simp [List.lookup, hba, ih hc2]

end ConstraintDetector

/-- C2: for every non-empty text, the suggestion keys of `detectGaps` are
exactly its gaps (same sequence, hence same set and count), the gap list is
the fixed category order filtered to the categories judged absent (hence each
category occurs at most once, in enumeration order), and a category judged
present appears in neither output. -/
theorem spec_C2 (text : List Char) (h : text ≠ []) :
    (ConstraintDetector.detect text).suggestions.map Prod.fst =
      (ConstraintDetector.detect text).gaps ∧
    (ConstraintDetector.detect text).gaps =
      CATEGORY_ORDER.filter (fun c => !ConstraintDetector.judgedPresent text c) ∧
    (∀ c : ConstraintCategory, ConstraintDetector.judgedPresent text c = true →
      c ∉ (ConstraintDetector.detect text).gaps ∧
      c ∉ (ConstraintDetector.detect text).suggestions.map Prod.fst) := by
  have hs := ConstraintDetector.detect_suggestions_eq text
  have hg := ConstraintDetector.detect_gaps_eq text
  have hkeys : (ConstraintDetector.detectByRules text).suggestions.map Prod.fst =
      (ConstraintDetector.detectByRules text).gaps := by
    rw [hs, List.map_map]
    simp [Function.comp_def]
  refine ⟨hkeys, hg, fun c hc => ⟨?_, ?_⟩⟩
  · rw [show ConstraintDetector.detect text = ConstraintDetector.detectByRules text from rfl, hg]
    simp [List.mem_filter, hc]
  · rw [show ConstraintDetector.detect text = ConstraintDetector.detectByRules text from rfl,
      hkeys, hg]
    simp [List.mem_filter, hc]

/-- Witness for C2 at the concrete input `"x"`. -/
theorem spec_C2_witness :
    "x".data ≠ [] ∧
    (ConstraintDetector.detect "x".data).suggestions.map Prod.fst =
      (ConstraintDetector.detect "x".data).gaps :=
  ⟨by decide, (spec_C2 "x".data (by decide)).1⟩

/-- Counterexample to C3 as stated: on the text `"x"`, the `examples`
category is a gap, its attached suggestion list is the static default, and
that list has only 2 entries — not at least 3. -/
theorem spec_C3_counterexample :
    ConstraintCategory.examples ∈ (ConstraintDetector.detect "x".data).gaps ∧
    List.lookup ConstraintCategory.examples
      (ConstraintDetector.detect "x".data).suggestions =
      some (ConstraintDetector.DEFAULT_SUGGESTIONS ConstraintCategory.examples) ∧
    (ConstraintDetector.DEFAULT_SUGGESTIONS ConstraintCategory.examples).length = 2 := by
  refine ⟨by decide, by decide, by decide⟩

/-- C3 as amended: every category in the gaps of `detectGaps` carries its
static default suggestion list, which has between 2 and 6 entries (6 for
`language`, 3 for `level`, 4 for `output_format` and `scope`, and 2 — not
3–6 — for `examples`). -/
theorem spec_C3 (text : List Char) (c : ConstraintCategory)
    (hc : c ∈ (ConstraintDetector.detect text).gaps) :
    List.lookup c (ConstraintDetector.detect text).suggestions =
      some (ConstraintDetector.DEFAULT_SUGGESTIONS c) ∧
    2 ≤ (ConstraintDetector.DEFAULT_SUGGESTIONS c).length ∧
    (ConstraintDetector.DEFAULT_SUGGESTIONS c).length ≤ 6 := by
  refine ⟨?_, by cases c <;> decide, by cases c <;> decide⟩
  rw [show ConstraintDetector.detect text = ConstraintDetector.detectByRules text from rfl,
    ConstraintDetector.detect_suggestions_eq text]
  exact ConstraintDetector.lookup_map_pair _ _ _ hc

/-- Witness for C3 (amended) at the concrete input `"x"` and category
`language`. -/
theorem spec_C3_witness :
    ConstraintCategory.language ∈ (ConstraintDetector.detect "x".data).gaps ∧
    (List.lookup ConstraintCategory.language
      (ConstraintDetector.detect "x".data).suggestions =
      some (ConstraintDetector.DEFAULT_SUGGESTIONS ConstraintCategory.language) ∧
    2 ≤ (ConstraintDetector.DEFAULT_SUGGESTIONS ConstraintCategory.language).length ∧
    (ConstraintDetector.DEFAULT_SUGGESTIONS ConstraintCategory.language).length ≤ 6) :=
  ⟨by decide, spec_C3 "x".data ConstraintCategory.language (by decide)⟩

/-- C4: `detectGaps "algorithm"` does not judge `language` present (the
short indicators `r` and `go` occur only inside the word, where no word
boundary exists), while `detectGaps "Let's use R for this"` does judge
`language` present (`r` occurs as a standalone word): short language
indicators are matched with word boundaries, longer ones by raw substring
containment of the lowercased text. -/
theorem spec_C4 :
    ConstraintCategory.language ∈ (ConstraintDetector.detect "algorithm".data).gaps ∧
    ConstraintCategory.language ∉ (ConstraintDetector.detect textLetsUseR).gaps ∧
    (∀ lang ∈ ConstraintDetector.LANGUAGES, lang.length ≤ 3 →
      ∀ lower : List Char,
        ConstraintDetector.matchesLanguage lang lower = ConstraintDetector.wbTest lang lower) ∧
    (∀ lang ∈ ConstraintDetector.LANGUAGES, 3 < lang.length →
      ∀ lower : List Char,
        ConstraintDetector.matchesLanguage lang lower = includes lang lower) := by
  refine ⟨by decide, by decide, ?_, ?_⟩
  · intro lang _ hlen lower
    simp [ConstraintDetector.matchesLanguage, hlen]
  · intro lang _ hlen lower
    simp [ConstraintDetector.matchesLanguage, Nat.not_le.mpr hlen]

namespace IntentDetector

theorem detectFrom_eq_find (lower : List Char) (rules : List IntentRule) :
    detectFrom lower rules =
      match rules.find? (fun r => r.keywords.any (fun kw => includes kw lower)) with
      | some r => { detected := r.intent, confidence := .medium, source := .rule }
      | none => { detected := .general, confidence := .low, source := .rule } := by
  induction rules with
  | nil => rfl
  | cons r rest ih =>
    by_cases hr : (r.keywords.any (fun kw => includes kw lower)) = true
    · simp [detectFrom, List.find?, hr]
    · have hr2 : (r.keywords.any (fun kw => includes kw lower)) = false := by
        simpa using hr
      simp [detectFrom, List.find?, hr2, ih]

end IntentDetector

/-- C5: `classify` (rule-based intent detection) returns the first rule in
the fixed table order one of whose keywords occurs in the lowercased text,
with confidence `medium` and source `rule`, and the general/low/rule fallback
when no rule matches; consequently, any text containing both `explain` and
`fix` but no `code_generation` keyword is classified `explanation` (not
`debugging`), since the `explanation` rule precedes the `debugging` rule. -/
theorem spec_C5 (text : List Char) (h : text ≠ []) :
    (IntentDetector.detect text =
      match IntentDetector.INTENT_RULES.find?
          (fun r => r.keywords.any (fun kw => includes kw (toLowerCase text))) with
      | some r => { detected := r.intent, confidence := .medium, source := .rule }
      | none => { detected := .general, confidence := .low, source := .rule }) ∧
    (includes "explain".data (toLowerCase text) = true →
     includes "fix".data (toLowerCase text) = true →
     (IntentDetector.codeGenerationKeywords.all
        (fun kw => !includes kw (toLowerCase text))) = true →
     (IntentDetector.detect text).detected = IntentName.explanation) := by
  refine ⟨IntentDetector.detectFrom_eq_find (toLowerCase text) IntentDetector.INTENT_RULES,
    fun hexp _hfix hcg => ?_⟩
  have h1 : (IntentDetector.codeGenerationKeywords.any
      (fun kw => includes kw (toLowerCase text))) = false := by
    rw [List.all_eq_true] at hcg
    rw [List.any_eq_false]
    intro kw hkw
    simpa using hcg kw hkw
  have h2 : (IntentDetector.explanationKeywords.any
      (fun kw => includes kw (toLowerCase text))) = true := by
    rw [List.any_eq_true]
    exact ⟨"explain".data, by simp [IntentDetector.explanationKeywords], hexp⟩
  show (IntentDetector.detectByRules text).detected = IntentName.explanation
  rw [IntentDetector.detectByRules, IntentDetector.INTENT_RULES,
    IntentDetector.detectFrom, if_neg (by simpa using h1),
    IntentDetector.detectFrom, if_pos (by simpa using h2)]

/-- Witness for C5 at the concrete input `"explain the fix"`. -/
theorem spec_C5_witness :
    "explain the fix".data ≠ [] ∧
    (IntentDetector.detect "explain the fix".data).detected = IntentName.explanation :=
  ⟨by decide,
    (spec_C5 "explain the fix".data (by decide)).2 (by decide) (by decide) (by decide)⟩

/-- C10: intent keyword matching uses raw substring containment with no word
boundaries even for short keywords: `classify "Summarize suffix arrays"`
returns `debugging` (the keyword `fix` occurs inside `suffix`, and the
`debugging` rule precedes the `summarization` rule), not `summarization`,
even though the `summarization` keyword `summarize` also occurs. -/
theorem spec_C10 :
    IntentDetector.detect "Summarize suffix arrays".data =
      { detected := .debugging, confidence := .medium, source := .rule } ∧
    includes "fix".data (toLowerCase "Summarize suffix arrays".data) = true ∧
    includes "summarize".data (toLowerCase "Summarize suffix arrays".data) = true := by
  refine ⟨by decide, by decide, by decide⟩

namespace DriftDetector

theorem ratio_lt_iff (o L : Nat) (hL : L ≠ 0) :
    ((o : ℚ) / (L : ℚ) < 0.4) ↔ 5 * o < 2 * L := by
  have hL0 : (0 : ℚ) < (L : ℚ) := by
    exact_mod_cast Nat.pos_of_ne_zero hL
  rw [div_lt_iff₀ hL0, show (0.4 : ℚ) = 2/5 by norm_num]
  constructor
  · intro h
    have h5 : (5 * o : ℚ) < 2 * L := by linarith
    exact_mod_cast h5
  · intro h
    have h5 : (5 * o : ℚ) < 2 * L := by exact_mod_cast h
    linarith

theorem round_pct_eq (o L : Nat) (hL : L ≠ 0) :
    (((200 * o + L) / (2 * L) : ℕ) : ℤ) = ⌊(o : ℚ) / (L : ℚ) * 100 + 1/2⌋ := by
  have hL0 : (L : ℚ) ≠ 0 := by exact_mod_cast hL
  have h1 : (o : ℚ) / (L : ℚ) * 100 + 1/2 = ((200 * o + L : ℕ) : ℚ) / ((2 * L : ℕ) : ℚ) := by
    push_cast
    field_simp
    ring
  rw [h1, Rat.floor_natCast_div_natCast]
  exact Int.natCast_div _ _

theorem mkDriftWarning_ne_nil (pct : Nat) : mkDriftWarning pct ≠ [] := by
  unfold mkDriftWarning
  intro hcontra
  rw [List.append_eq_nil, List.append_eq_nil] at hcontra
  exact (by decide : "Intent drift detected: only ".data ≠ ([] : List Char)) hcontra.1.1

end DriftDetector

/-- C6: `detectDrift` returns no-drift with an empty warning when the
original text yields zero keywords; otherwise drift is detected exactly when
the fraction of original keywords preserved in the refined keyword set is
strictly below `0.4`; the warning is non-empty iff drift is detected, and
when detected it is the fixed message embedding `round(overlap·100)` as a
percentage. -/
theorem spec_C6 (orig refined : List Char) :
    (DriftDetector.extractKeywords orig = [] →
      DriftDetector.detect orig refined = ⟨false, []⟩) ∧
    (DriftDetector.extractKeywords orig ≠ [] →
      ((DriftDetector.detect orig refined).driftDetected = true ↔
        (DriftDetector.overlapCount orig refined : ℚ) /
          ((DriftDetector.extractKeywords orig).length : ℚ) < 0.4)) ∧
    ((DriftDetector.detect orig refined).driftWarning ≠ [] ↔
      (DriftDetector.detect orig refined).driftDetected = true) ∧
    ((DriftDetector.detect orig refined).driftDetected = true →
      (DriftDetector.detect orig refined).driftWarning =
        DriftDetector.mkDriftWarning
          ((200 * DriftDetector.overlapCount orig refined +
            (DriftDetector.extractKeywords orig).length) /
           (2 * (DriftDetector.extractKeywords orig).length)) ∧
      (((200 * DriftDetector.overlapCount orig refined +
          (DriftDetector.extractKeywords orig).length) /
         (2 * (DriftDetector.extractKeywords orig).length) : ℕ) : ℤ) =
        ⌊(DriftDetector.overlapCount orig refined : ℚ) /
          ((DriftDetector.extractKeywords orig).length : ℚ) * 100 + 1/2⌋) := by
  unfold DriftDetector.detect DriftDetector.detectByRules
  simp only [DriftDetector.overlapCount]
  by_cases h0 : (DriftDetector.extractKeywords orig).length = 0
  · rw [if_pos h0]
    refine ⟨fun _ => rfl, fun hne => absurd (List.length_eq_zero.mp h0) hne, by simp,
      fun habs => absurd habs (by simp)⟩
  · rw [if_neg h0]
    by_cases hlt : 5 * ((DriftDetector.extractKeywords orig).filter
        (fun kw => (DriftDetector.extractKeywords refined).contains kw)).length <
        2 * (DriftDetector.extractKeywords orig).length
    · rw [if_pos hlt]
      refine ⟨fun hemp => absurd (by rw [hemp]; rfl) h0, fun _ => ?_, ?_, fun _ => ⟨rfl, ?_⟩⟩
      · rw [DriftDetector.ratio_lt_iff _ _ h0]
        exact iff_of_true rfl hlt
      · simp [DriftDetector.mkDriftWarning_ne_nil]
      · exact DriftDetector.round_pct_eq _ _ h0
    · rw [if_neg hlt]
      refine ⟨fun _ => rfl, fun _ => ?_, by simp, fun habs => absurd habs (by simp)⟩
      rw [DriftDetector.ratio_lt_iff _ _ h0]
      exact iff_of_false (by simp) hlt

/-- Witness for C6: the zero-keyword original `"a!"` yields no drift, and a
drifting pair is detected with the expected warning. -/
theorem spec_C6_witness :
    (DriftDetector.extractKeywords "a!".data = []) ∧
    DriftDetector.detect "a!".data "anything".data = ⟨false, []⟩ :=
  ⟨by decide, (spec_C6 "a!".data "anything".data).1 (by decide)⟩

theorem ite_singleton_eq_nil {α : Type} (P : Prop) [Decidable P] (x : α) :
    ((if P then [x] else []) = []) ↔ ¬P := by
  split_ifs with h <;> simp [h]

theorem ite_two_eq_nil {α : Type} (P Q : Prop) [Decidable P] [Decidable Q] (x y : α) :
    ((if P then [x] else if Q then [y] else []) = []) ↔ ¬P ∧ ¬Q := by
  split_ifs <;> simp_all

theorem mem_ite_singleton {α : Type} (x y : α) (P : Prop) [Decidable P] :
    (x ∈ (if P then [y] else [])) ↔ P ∧ x = y := by
  split_ifs with h <;> simp [h]

theorem mem_ite_two {α : Type} (x y z : α) (P Q : Prop) [Decidable P] [Decidable Q] :
    (x ∈ (if P then [y] else if Q then [z] else [])) ↔
      (P ∧ x = y) ∨ (¬P ∧ Q ∧ x = z) := by
  split_ifs <;> simp_all

/-- C8: `generateWarnings` returns the empty list iff none of the six
trigger conditions holds (`specificity ≤ 5`, `|gaps| ≥ 2`, `clarity ≤ 3`,
`intentAlignment ≤ 3`, confidence `low`, `total ≤ 12`); in particular it is
empty for a perfect score card with no gaps and high confidence, and the
high and moderate hallucination-risk messages never both appear. -/
theorem spec_C8 (scores : ScoreCard) (gaps : List ConstraintCategory) (intent : Intent) :
    (WarningGenerator.generate scores gaps intent = [] ↔
      ¬(scores.specificity ≤ 5) ∧ ¬(2 ≤ gaps.length) ∧ ¬(scores.clarity ≤ 3) ∧
      ¬(scores.intentAlignment ≤ 3) ∧ intent.confidence ≠ Confidence.low ∧
      ¬(scores.total ≤ 12)) ∧
    WarningGenerator.generate ⟨10, 10, 10, 10, 40⟩ []
      ⟨IntentName.general, Confidence.high, Source.rule⟩ = [] ∧
    ¬(WarningGenerator.Warning.hallucinationHigh ∈
        WarningGenerator.generate scores gaps intent ∧
      WarningGenerator.Warning.hallucinationModerate ∈
        WarningGenerator.generate scores gaps intent) := by
  refine ⟨?_, by decide, ?_⟩
  · unfold WarningGenerator.generate
    simp only [List.append_eq_nil, ite_two_eq_nil, ite_singleton_eq_nil, and_assoc]
    constructor
    · rintro ⟨h1, h2, h3, h4, h5, h6, h7, h8⟩
      exact ⟨h2, h4, h5, h6, h7, h8⟩
    · rintro ⟨h2, h4, h5, h6, h7, h8⟩
      refine ⟨fun hc => h2 (by omega), h2, fun hc => h4 (by omega), h4, h5, h6, h7, h8⟩
  · unfold WarningGenerator.generate
    simp only [List.mem_append, mem_ite_two, mem_ite_singleton]
    rintro ⟨hH, hM⟩
    simp at hH hM
    omega

/-- Witness for C8: the empty-warning instance extracted from the theorem at
a concrete score card, gap list, and intent. -/
theorem spec_C8_witness :
    WarningGenerator.generate ⟨10, 10, 10, 10, 40⟩ []
      ⟨IntentName.general, Confidence.high, Source.rule⟩ = [] :=
  (spec_C8 ⟨10, 10, 10, 10, 40⟩ [] ⟨IntentName.general, Confidence.high, Source.rule⟩).2.1

namespace ConstraintDetector

theorem wbSearchAux_eq_false_of_occOk (kw : List Char)
    (hlast : isWordO kw.getLast? = false) :
    ∀ (text : List Char) (prev : Option Char), occOk kw text = true →
      wbSearchAux kw text prev = false := by
  intro text
  induction text with
  | nil =>
    intro prev _
    simp [wbSearchAux, wbMatchHere, hlast, isWordO]
    intro hk _
    subst hk
    rfl
  | cons c rest ih =>
    intro prev hocc
    unfold occOk at hocc
    rw [Bool.and_eq_true] at hocc
    obtain ⟨hA, hB⟩ := hocc
    unfold wbSearchAux
    rw [Bool.or_eq_false_iff]
    refine ⟨?_, ih (some c) hB⟩
    cases hp : kw.isPrefixOf (c :: rest) with
    | false => simp [wbMatchHere, hp]
    | true =>
      rw [hp] at hA
      simp at hA
      simp [wbMatchHere, hp, hlast, hA]

end ConstraintDetector

/-- Counterexample to C9 as stated: the text `"c++x"` contains `c++` and
matches no other language indicator, yet `\bc\+\+\b` matches it (a word
boundary does exist after the final `+` because a word character follows),
so `language` is not among its gaps — refuting both "can never match any
text" and the universally quantified gap claim. -/
theorem spec_C9_counterexample :
    includes "c++".data "c++x".data = true ∧
    ConstraintDetector.LANGUAGES.all
      (fun lang => lang == "c++".data ||
        !ConstraintDetector.matchesLanguage lang "c++x".data) = true ∧
    ConstraintDetector.wbTest "c++".data "c++x".data = true ∧
    ConstraintCategory.language ∉ (ConstraintDetector.detect "c++x".data).gaps := by
  refine ⟨by decide, by decide, by decide, by decide⟩

/-- C9 as amended: for every text whose lowercased form contains `c++`, in
which every occurrence of `c++` is followed by the end of the text or by a
non-word character (as in `"use c++"`), and which matches no other language
indicator, `detectGaps` includes `language` in its gaps: the word-boundary
regex `\bc\+\+\b` requires a boundary after the final non-word character
`+`, which exists only when a word character follows. -/
theorem spec_C9 (text : List Char)
    (h1 : includes "c++".data (toLowerCase text) = true)
    (h2 : ConstraintDetector.occOk "c++".data (toLowerCase text) = true)
    (h3 : ConstraintDetector.LANGUAGES.all
      (fun lang => lang == "c++".data ||
        !ConstraintDetector.matchesLanguage lang (toLowerCase text)) = true) :
    ConstraintCategory.language ∈ (ConstraintDetector.detect text).gaps := by
  have hcpp : ConstraintDetector.matchesLanguage "c++".data (toLowerCase text) = false := by
    unfold ConstraintDetector.matchesLanguage
    rw [if_pos (by decide)]
    exact ConstraintDetector.wbSearchAux_eq_false_of_occOk _ (by decide) _ none h2
  have hL : ConstraintDetector.hasLanguage (toLowerCase text) = false := by
    unfold ConstraintDetector.hasLanguage
    rw [List.any_eq_false]
    intro lang hlang
    rw [List.all_eq_true] at h3
    rcases (Bool.or_eq_true _ _).mp (h3 lang hlang) with hcase | hcase
    · have heq : lang = "c++".data := by simpa using hcase
      rw [heq, hcpp]
      exact Bool.false_ne_true
    · have : ConstraintDetector.matchesLanguage lang (toLowerCase text) = false := by
        simpa using hcase
      rw [this]
      exact Bool.false_ne_true
  show ConstraintCategory.language ∈ (ConstraintDetector.detectByRules text).gaps
  unfold ConstraintDetector.detectByRules
  simp [hL]

/-- Witness for C9 (amended) at the concrete input `"use c++"`. -/
theorem spec_C9_witness :
    includes "c++".data (toLowerCase "use c++".data) = true ∧
    ConstraintDetector.occOk "c++".data (toLowerCase "use c++".data) = true ∧
    ConstraintDetector.LANGUAGES.all
      (fun lang => lang == "c++".data ||
        !ConstraintDetector.matchesLanguage lang (toLowerCase "use c++".data)) = true ∧
    ConstraintCategory.language ∈ (ConstraintDetector.detect "use c++".data).gaps :=
  ⟨by decide, by decide, by decide,
    spec_C9 "use c++".data (by decide) (by decide) (by decide)⟩
